import Mathlib

/-!
Shallow embedding of the GitHub GraphQL client
(`src/scripts/cliente_github.py`): the token rotation manager
(`TokenManager`), the single-request retry protocol (`graphql_request`)
and the pagination loop (`fetch_top_repositories`).

The HTTP endpoint is modelled as an oracle: for `graphql_request` a
function from the (0-based) attempt number to the `HttpResponse` that
attempt receives; for `fetch_top_repositories` a function from the
(0-based) page-request number and the requested page size (`first`
variable) to the successful `PageResponse` the underlying
`graphql_request` call delivers.  Wall-clock sleeping is not executed;
instead each sleep is recorded in the result trace (backoff durations in
seconds, reset timestamps handed to `sleep_until_reset`).  The `while`
loops are driven by explicit fuel: `graphql_request`'s loop is bounded
by `max_attempts` in the source, so the fuel is exactly that bound;
`fetch_top_repositories`'s loop has no bound in the source, so the fuel
is a parameter and a run that does not finish within its fuel returns
`none`.
-/

namespace GithubClient

/-- Python's `str.strip()`: drop whitespace from both ends
(implemented over the character list so it evaluates by kernel
reduction). -/
def strip (s : String) : String :=
  ⟨((s.toList.dropWhile Char.isWhitespace).reverse.dropWhile
      Char.isWhitespace).reverse⟩

/-- Trimming-based cleaning of one credential entry, from
`[token.strip() for token in tokens if token and token.strip()]`:
keep `token.strip()` exactly when `token` and `token.strip()` are
non-empty (a string whose strip is non-empty is itself non-empty). -/
def cleanToken (t : String) : Option String :=
  if strip t = "" then none else some (strip t)

/-- `TokenManager` state: the cleaned token list and the index of the
token currently in use. -/
structure TokenManager where
  tokens : List String
  index : Nat
  deriving Repr, DecidableEq

/-- `TokenManager.__init__`: clean the supplied tokens, fail with the
configuration error when none survives. -/
def TokenManager.init (ts : List String) : Except String TokenManager :=
  let cleaned := ts.filterMap cleanToken
  if cleaned.isEmpty then
    Except.error "Nenhum token informado. Defina GITHUB_TOKEN ou GITHUB_TOKENS."
  else
    Except.ok ⟨cleaned, 0⟩

/-- `TokenManager.current_token`: the token at the active index
(total function; on well-formed states the index is in range). -/
def TokenManager.current_token (tm : TokenManager) : String :=
  tm.tokens.getD tm.index ""

/-- `TokenManager.next_token`: advance circularly,
`self.index = (self.index + 1) % len(self.tokens)`. -/
def TokenManager.next_token (tm : TokenManager) : TokenManager :=
  { tm with index := (tm.index + 1) % tm.tokens.length }

/-- One HTTP response as `graphql_request` observes it: status code, the
two rate-limit headers (absent headers are `none`; the source defaults
them to "1" and "0"), the stringified `errors` field of a 200 JSON
payload when present, the `data` payload, and the body text. -/
structure HttpResponse where
  status : Nat
  remainingHdr : Option Int
  resetHdr : Option Int
  errorsField : Option String
  dataField : String
  text : String

/-- Whether the pattern matches at the head of the text. -/
def matchesAt : List Char → List Char → Bool
  | [], _ => true
  | _ :: _, [] => false
  | a :: p, b :: s => a == b && matchesAt p s

/-- Whether the pattern occurs as a contiguous run of the text. -/
def occursIn (p : List Char) : List Char → Bool
  | [] => matchesAt p []
  | b :: s => matchesAt p (b :: s) || occursIn p s

/-- `"rate limit" in s.lower()` from the source: the text is lowercased
character by character and searched for the pattern. -/
def mentionsRateLimit (s : String) : Bool :=
  occursIn "rate limit".toList (s.toList.map Char.toLower)

/-- The errors `graphql_request` can raise (`RuntimeError` in the
source, split by message). -/
inductive GqlError where
  /-- `RuntimeError(f"Erro GraphQL: {payload['errors']}")` -/
  | graphqlError (errs : String)
  /-- `RuntimeError(f"Falha na chamada GraphQL: HTTP {status} - {text}")` -/
  | httpFailure (status : Nat) (body : String)
  /-- `RuntimeError` raised after the `while` loop exhausts `max_attempts` -/
  | exhausted
  deriving Repr, DecidableEq

/-- Result of a `graphql_request` run: the returned payload or error,
the token manager state after the call, the number of attempts (HTTP
requests issued), the number of `next_token` rotations, the transient
backoff sleeps in seconds, and the reset timestamps passed to
`sleep_until_reset`, each in order. -/
structure GqlResult where
  outcome : Except GqlError String
  tm : TokenManager
  attempts : Nat
  rotations : Nat
  backoffs : List Nat
  resetSleeps : List Int
  /-- the credential placed in the auth headers of each attempt, in order -/
  used : List String
  deriving Repr

/-- The body of `graphql_request`'s `while attempts < max_attempts`
loop.  `fuel` is the number of attempts still allowed
(`max_attempts - attempts`); `attempts` is the count already used, so
the current attempt reads `responses attempts` and the incremented
counter `attempts + 1` is the 1-based attempt number used in the
backoff formula `5 + attempts*2`. -/
def gqlLoop (responses : Nat → HttpResponse) :
    Nat → TokenManager → Nat → Nat → List Nat → List Int → List String → GqlResult
  | 0, tm, attempts, rot, backs, sleeps, used =>
      ⟨Except.error GqlError.exhausted, tm, attempts, rot, backs, sleeps, used⟩
  | fuel + 1, tm, attempts, rot, backs, sleeps, used =>
      let a := attempts + 1
      let used' := used ++ [tm.current_token]
      let resp := responses attempts
      let remaining := resp.remainingHdr.getD 1
      let reset_at := resp.resetHdr.getD 0
      if resp.status = 200 then
        match resp.errorsField with
        | some errs =>
            if mentionsRateLimit errs then
              let tm' := tm.next_token
              let sleeps' :=
                if tm'.index = 0 ∧ reset_at > 0 then sleeps ++ [reset_at] else sleeps
              gqlLoop responses fuel tm' a (rot + 1) backs sleeps' used'
            else
              ⟨Except.error (GqlError.graphqlError errs), tm, a, rot, backs, sleeps, used'⟩
        | none =>
            if remaining ≤ 1 then
              ⟨Except.ok resp.dataField, tm.next_token, a, rot + 1, backs, sleeps, used'⟩
            else
              ⟨Except.ok resp.dataField, tm, a, rot, backs, sleeps, used'⟩
      else if resp.status = 403 ∨ resp.status = 429 ∨ mentionsRateLimit resp.text then
        let tm' := tm.next_token
        let sleeps' :=
          if tm'.index = 0 ∧ reset_at > 0 then sleeps ++ [reset_at] else sleeps
        gqlLoop responses fuel tm' a (rot + 1) backs sleeps' used'
      else if resp.status = 500 ∨ resp.status = 502 ∨ resp.status = 503 ∨ resp.status = 504 then
        gqlLoop responses fuel tm a rot (backs ++ [5 + a * 2]) sleeps used'
      else
        ⟨Except.error (GqlError.httpFailure resp.status resp.text), tm, a, rot, backs, sleeps, used'⟩

/-- `max_attempts = max(5, len(token_manager.tokens) * 3)`. -/
def maxAttempts (tm : TokenManager) : Nat :=
  max 5 (tm.tokens.length * 3)

/-- `graphql_request`: run the bounded retry loop from a fresh attempt
counter. -/
def graphql_request (responses : Nat → HttpResponse) (tm : TokenManager) : GqlResult :=
  gqlLoop responses (maxAttempts tm) tm 0 0 [] [] []

/-- A raw repository record is opaque to the client; it is modelled as
a natural number tag. -/
abbrev RawRecord := Nat

/-- A successful page response as `fetch_top_repositories` consumes it:
the `search.nodes` list (entries may be null), `pageInfo.hasNextPage`
and `pageInfo.endCursor`. -/
structure PageResponse where
  nodes : List (Option RawRecord)
  hasNextPage : Bool
  endCursor : Option String

/-- Result of a `fetch_top_repositories` run: the accumulated records
and the `first` page-size variable of each page request issued, in
order. -/
structure FetchOut where
  repos : List RawRecord
  sizes : List Int
  deriving Repr, DecidableEq

/-- The body of `fetch_top_repositories`'s `while remaining > 0` loop.
`pages` is the endpoint oracle (page-request number and requested
`first` value to response); `remaining` and the requested sizes are
`Int` since the Python counters may go negative.  `none` means the fuel
ran out before the loop finished. -/
def fetchLoop (pages : Nat → Int → PageResponse) (pageSize : Int) :
    Nat → Nat → Int → List RawRecord → List Int → Option FetchOut
  | 0, _, _, _, _ => none
  | fuel + 1, pageIdx, remaining, acc, sizes =>
      if remaining > 0 then
        let batch := min pageSize remaining
        let resp := pages pageIdx batch
        let repos := resp.nodes.filterMap id
        let acc' := acc ++ repos
        let remaining' := remaining - (repos.length : Int)
        let sizes' := sizes ++ [batch]
        if resp.hasNextPage = false ∨ remaining' ≤ 0 then
          some ⟨acc', sizes'⟩
        else
          fetchLoop pages pageSize fuel (pageIdx + 1) remaining' acc' sizes'
      else
        some ⟨acc, sizes⟩

/-- `fetch_top_repositories(token_manager, limit)`: return empty at
`limit <= 0` without issuing a request, otherwise run the pagination
loop.  `pageSize` is the configured `PAGE_SIZE` (10 by default). -/
def fetch_top_repositories (pages : Nat → Int → PageResponse)
    (pageSize limit : Int) (fuel : Nat) : Option FetchOut :=
  if limit ≤ 0 then some ⟨[], []⟩
  else fetchLoop pages pageSize fuel 0 limit [] []

/-- The backoff durations of a run of consecutive transient-error
attempts: the attempt numbered `a + 1` (1-based) waits
`5 + (a + 1) * 2` seconds. -/
def backoffSeq (a : Nat) : Nat → List Nat
  | 0 => []
  | f + 1 => (5 + (a + 1) * 2) :: backoffSeq (a + 1) f

/-! ### Concrete fixtures for witnesses and counterexamples -/

/-- A bare 502 response (empty body, no rate-limit headers). -/
def resp502W : HttpResponse := ⟨502, none, none, none, "", ""⟩

/-- Single-token manager for the exhaustion witness. -/
def tmC1 : TokenManager := ⟨["t"], 0⟩

/-- A bare 429 response. -/
def resp429W : HttpResponse := ⟨429, none, none, none, "", ""⟩

/-- A 200 success response with a comfortable remaining quota. -/
def resp200W : HttpResponse := ⟨200, some 100, none, none, "DATA", ""⟩

/-- Endpoint returning 429 on the first two attempts and success on the
third. -/
def responsesC2 : Nat → HttpResponse
  | 0 => resp429W
  | 1 => resp429W
  | _ => resp200W

/-- Three-token manager for the rotation witness. -/
def tmC2 : TokenManager := ⟨["a", "b", "c"], 0⟩

/-- A 200 response carrying a non-rate-limit error payload. -/
def respBadSyntaxW : HttpResponse := ⟨200, some 50, none, some "Bad syntax", "", ""⟩

/-- Single-token manager for the API-error witness. -/
def tmC6 : TokenManager := ⟨["x"], 0⟩

/-- A 200 success response reporting a remaining quota of exactly 1. -/
def respRem1W : HttpResponse := ⟨200, some 1, none, none, "d", ""⟩

/-- A rotator holding a single credential. -/
def tmOnlyW : TokenManager := ⟨["only"], 0⟩

/-- A rotator holding two distinct credentials. -/
def tmPairW : TokenManager := ⟨["a", "b"], 0⟩

/-- A success response with no `X-RateLimit-Remaining` header. -/
def respNoHdrW : HttpResponse := ⟨200, none, none, none, "payload", ""⟩

/-- Two-token manager for the missing-header witness. -/
def tmC10 : TokenManager := ⟨["p", "q"], 0⟩

/-- Endpoint answering every page request with exactly the requested
number of non-null records and `hasNextPage = true`. -/
def pagesExactW : Nat → Int → PageResponse :=
  fun _ b => ⟨List.replicate b.toNat (some 1), true, none⟩

/-- Endpoint answering every page request with zero records while
claiming more pages exist. -/
def pagesStallW : Nat → Int → PageResponse := fun _ _ => ⟨[], true, none⟩

/-- Endpoint answering every page request with one record and no
further pages. -/
def pagesOneW : Nat → Int → PageResponse := fun _ _ => ⟨[some 7], false, none⟩

/-- Endpoint answering every page request with zero records and no
further pages. -/
def pagesNilW : Nat → Int → PageResponse := fun _ _ => ⟨[], false, none⟩

/-! ### Helper lemmas -/

theorem filterMap_id_replicate (n a : Nat) :
    (List.filterMap id (List.replicate n (some a))).length = n := by
  induction n with
  | zero => rfl
  | succ m ih => simp [List.replicate_succ, List.filterMap_cons, ih]

theorem cleanToken_filterMap (ts : List String) :
    ts.filterMap cleanToken = (ts.map strip).filter (fun s => s ≠ "") := by
  induction ts with
  | nil => rfl
  | cons t ts ih =>
      simp only [List.filterMap_cons, List.map_cons, List.filter_cons, cleanToken]
      by_cases h : strip t = "" <;> simp [h, ih]

theorem cleaned_nil_iff (ts : List String) :
    ts.filterMap cleanToken = [] ↔ ∀ t ∈ ts, strip t = "" := by
  rw [cleanToken_filterMap, List.filter_eq_nil_iff]
  simp

theorem next_token_iterate (tm : TokenManager) (k : Nat) :
    TokenManager.next_token^[k + 1] tm =
      ⟨tm.tokens, (tm.index + k + 1) % tm.tokens.length⟩ := by
  induction k with
  | zero => rfl
  | succ m ih =>
      rw [Function.iterate_succ_apply', ih]
      simp [TokenManager.next_token, Nat.mod_add_mod, Nat.add_assoc]

theorem backoffSeq_eq_range (f : Nat) :
    ∀ a, backoffSeq a f = (List.range f).map (fun i => 5 + (a + i + 1) * 2) := by
  induction f with
  | zero => intro a; rfl
  | succ n ih =>
      intro a
      rw [backoffSeq, ih, List.range_succ_eq_map]
      simp only [List.map_cons, List.map_map]
      refine congrArg₂ List.cons (by omega) ?_
      apply List.map_congr_left
      intro i _
      simp only [Function.comp]
      omega

theorem gqlLoop_all_transient (responses : Nat → HttpResponse)
    (hst : ∀ k, (responses k).status = 500 ∨ (responses k).status = 502 ∨
      (responses k).status = 503 ∨ (responses k).status = 504)
    (hrl : ∀ k, mentionsRateLimit (responses k).text = false) :
    ∀ fuel attempts tm rot backs sleeps used,
      gqlLoop responses fuel tm attempts rot backs sleeps used =
        ⟨Except.error GqlError.exhausted, tm, attempts + fuel, rot,
          backs ++ backoffSeq attempts fuel, sleeps,
          used ++ List.replicate fuel tm.current_token⟩ := by
  intro fuel
  induction fuel with
  | zero => intro attempts tm rot backs sleeps used; simp [gqlLoop, backoffSeq]
  | succ f ih =>
      intro attempts tm rot backs sleeps used
      have h := hst attempts
      have hx := hrl attempts
      have h200 : ¬ (responses attempts).status = 200 := by
        rcases h with h | h | h | h <;> omega
      have hrot : ¬ ((responses attempts).status = 403 ∨
          (responses attempts).status = 429 ∨
          mentionsRateLimit (responses attempts).text = true) := by
        rcases h with h | h | h | h <;> simp [h, hx]
      simp only [gqlLoop]
      rw [if_neg h200, if_neg hrot, if_pos h, ih]
      simp [backoffSeq, List.replicate_succ]
      omega

theorem next_token_wf (tm : TokenManager) (h : tm.index < tm.tokens.length) :
    tm.next_token.index < tm.next_token.tokens.length :=
  Nat.mod_lt _ (by omega)

theorem succ_mod_ne (i n : Nat) (hi : i < n) (h2 : 2 ≤ n) : (i + 1) % n ≠ i := by
  rcases Nat.lt_or_ge (i + 1) n with h | h
  · rw [Nat.mod_eq_of_lt h]
    omega
  · have hn : i + 1 = n := by omega
    rw [hn, Nat.mod_self]
    omega

theorem current_token_next_ne (tm : TokenManager)
    (hwf : tm.index < tm.tokens.length) (h2 : 2 ≤ tm.tokens.length)
    (hnd : tm.tokens.Nodup) :
    tm.next_token.current_token ≠ tm.current_token := by
  unfold TokenManager.next_token TokenManager.current_token
  simp only
  have hlt : (tm.index + 1) % tm.tokens.length < tm.tokens.length :=
    Nat.mod_lt _ (by omega)
  rw [List.getD_eq_getElem _ _ hlt, List.getD_eq_getElem _ _ hwf]
  intro hEq
  exact succ_mod_ne tm.index tm.tokens.length hwf h2
    ((List.Nodup.getElem_inj_iff hnd).mp hEq)

/-- Whenever the retry loop returns a success and the response of its
final attempt carried `X-RateLimit-Remaining: 1`, the returning
attempt used some state `tmS` (whose credential is the last entry of
the used-credential trace), and the loop returned `tmS` advanced by
one rotation. -/
theorem gqlLoop_ok_rotates_last (responses : Nat → HttpResponse) :
    ∀ fuel tm attempts rot backs sleeps used d,
      tm.index < tm.tokens.length →
      (gqlLoop responses fuel tm attempts rot backs sleeps used).outcome =
        Except.ok d →
      (responses
          ((gqlLoop responses fuel tm attempts rot backs sleeps used).attempts
            - 1)).remainingHdr = some 1 →
      ∃ tmS : TokenManager, tmS.tokens = tm.tokens ∧
        tmS.index < tmS.tokens.length ∧
        (gqlLoop responses fuel tm attempts rot backs sleeps used).used.getLast?
          = some tmS.current_token ∧
        (gqlLoop responses fuel tm attempts rot backs sleeps used).tm =
          tmS.next_token := by
  intro fuel
  induction fuel with
  | zero =>
      intro tm attempts rot backs sleeps used d hwf hok hhdr
      simp [gqlLoop] at hok
  | succ f ih =>
      intro tm attempts rot backs sleeps used d hwf hok hhdr
      by_cases h200 : (responses attempts).status = 200
      · cases herr : (responses attempts).errorsField with
        | some errs =>
            by_cases hrl : mentionsRateLimit errs = true
            · simp only [gqlLoop, h200, eq_self_iff_true, if_true, herr, hrl]
                at hok hhdr ⊢
              exact ih tm.next_token (attempts + 1) (rot + 1) backs _ _ d
                (next_token_wf tm hwf) hok hhdr
            · simp [gqlLoop, h200, herr, hrl] at hok
        | none =>
            by_cases hrem : (responses attempts).remainingHdr.getD 1 ≤ 1
            · simp only [gqlLoop, h200, eq_self_iff_true, if_true, herr,
                if_pos hrem] at hok hhdr ⊢
              exact ⟨tm, rfl, hwf, by simp, rfl⟩
            · simp only [gqlLoop, h200, eq_self_iff_true, if_true, herr,
                if_neg hrem] at hok hhdr ⊢
              rw [Nat.add_sub_cancel] at hhdr
              rw [hhdr] at hrem
              simp at hrem
      · by_cases hrlb : (responses attempts).status = 403 ∨
            (responses attempts).status = 429 ∨
            mentionsRateLimit (responses attempts).text = true
        · simp only [gqlLoop, if_neg h200, if_pos hrlb] at hok hhdr ⊢
          exact ih tm.next_token (attempts + 1) (rot + 1) backs _ _ d
            (next_token_wf tm hwf) hok hhdr
        · by_cases h5 : (responses attempts).status = 500 ∨
              (responses attempts).status = 502 ∨
              (responses attempts).status = 503 ∨
              (responses attempts).status = 504
          · simp only [gqlLoop, if_neg h200, if_neg hrlb, if_pos h5] at hok hhdr ⊢
            exact ih tm (attempts + 1) rot (backs ++ [5 + (attempts + 1) * 2])
              sleeps (used ++ [tm.current_token]) d hwf hok hhdr
          · simp [gqlLoop, h200, hrlb, h5] at hok

/-- When every page response holds at most the requested number of
non-null records, the accumulator never grows past
`acc.length + remaining.toNat`. -/
theorem fetchLoop_length_bound (pages : Nat → Int → PageResponse) (pageSize : Int)
    (H : ∀ k b, ((pages k b).nodes.filterMap id).length ≤ b.toNat) :
    ∀ fuel pageIdx remaining acc sizes out,
      fetchLoop pages pageSize fuel pageIdx remaining acc sizes = some out →
      out.repos.length ≤ acc.length + remaining.toNat := by
  intro fuel
  induction fuel with
  | zero =>
      intro pageIdx remaining acc sizes out h
      simp [fetchLoop] at h
  | succ f ih =>
      intro pageIdx remaining acc sizes out h
      by_cases hrem : remaining > 0
      · simp only [fetchLoop, if_pos hrem] at h
        have hb := H pageIdx (min pageSize remaining)
        have hmin : min pageSize remaining ≤ remaining := min_le_right _ _
        split at h
        · injection h with h
          rw [← h]
          simp only [FetchOut.repos, List.length_append]
          omega
        · have := ih _ _ _ _ _ h
          simp only [List.length_append] at this
          omega
      · simp only [fetchLoop, if_neg hrem] at h
        injection h with h
        rw [← h]
        exact Nat.le_add_right _ _

/-- On the all-empty always-more-pages endpoint the pagination loop
never finishes, whatever the fuel. -/
theorem fetchLoop_stall (pageSize : Int) :
    ∀ fuel pageIdx remaining acc sizes, 0 < remaining →
      fetchLoop pagesStallW pageSize fuel pageIdx remaining acc sizes = none := by
  intro fuel
  induction fuel with
  | zero => intros; rfl
  | succ f ih =>
      intro pageIdx remaining acc sizes hrem
      simp only [fetchLoop, if_pos hrem, pagesStallW, List.filterMap_nil,
        List.length_nil, Nat.cast_zero, sub_zero, List.append_nil]
      rw [if_neg (by simp; omega)]
      exact ih _ _ _ _ hrem

/-- When every page response holds at least one non-null record, fuel
`remaining.toNat` suffices for the pagination loop to finish. -/
theorem fetchLoop_progress (pages : Nat → Int → PageResponse) (pageSize : Int)
    (H : ∀ k b, 1 ≤ ((pages k b).nodes.filterMap id).length) :
    ∀ fuel pageIdx remaining acc sizes,
      0 < remaining → remaining.toNat ≤ fuel →
      (fetchLoop pages pageSize fuel pageIdx remaining acc sizes).isSome = true := by
  intro fuel
  induction fuel with
  | zero => intro _ remaining _ _ h1 h2; omega
  | succ f ih =>
      intro pageIdx remaining acc sizes h1 h2
      simp only [fetchLoop, if_pos h1]
      split
      · rfl
      · next hc =>
          push_neg at hc
          have hL := H pageIdx (min pageSize remaining)
          exact ih _ _ _ _ (by omega) (by omega)

/-! ### Claim theorems -/

/-- C7: constructing the rotator fails with the configuration error
exactly when every supplied entry trims to the empty string (so no
credential survives cleaning); otherwise it succeeds, stores the
trimmed non-empty credentials in their original order, and starts at
active index 0. -/
theorem tokenManager_init_spec (ts : List String) :
    ((∃ e, TokenManager.init ts = Except.error e) ↔ ∀ t ∈ ts, strip t = "") ∧
    (∀ tm, TokenManager.init ts = Except.ok tm →
      tm.tokens = (ts.map strip).filter (fun s => s ≠ "") ∧ tm.index = 0) := by
  have hiff := cleaned_nil_iff ts
  by_cases h : ts.filterMap cleanToken = []
  · constructor
    · refine ⟨fun _ => hiff.mp h,
        fun _ => ⟨"Nenhum token informado. Defina GITHUB_TOKEN ou GITHUB_TOKENS.", ?_⟩⟩
      simp [TokenManager.init, h]
    · intro tm htm
      simp [TokenManager.init, h] at htm
  · constructor
    · constructor
      · intro ⟨e, he⟩
        simp [TokenManager.init, h] at he
      · intro hall
        exact absurd (hiff.mpr hall) h
    · intro tm htm
      simp [TokenManager.init, h] at htm
      rw [← htm]
      exact ⟨(cleanToken_filterMap ts).symm ▸ rfl, rfl⟩

/-- C7 witness: a list whose entries all trim to empty fails, and a
mixed list succeeds with the trimmed tokens in order and index 0. -/
theorem tokenManager_init_spec_witness :
    (∃ e, TokenManager.init ["", "   "] = Except.error e) ∧
    ((TokenManager.mk ["a", "b"] 0).tokens =
        (([" a ", "", "b"].map strip).filter (fun s => s ≠ "")) ∧
      (TokenManager.mk ["a", "b"] 0).index = 0) :=
  ⟨(tokenManager_init_spec ["", "   "]).1.mpr (by decide),
   (tokenManager_init_spec [" a ", "", "b"]).2 ⟨["a", "b"], 0⟩ rfl⟩

/-- C9: for a rotator over `count ≥ 1` credentials with in-range active
index, advancing `count` times restores the whole state, and a single
advance maps index `i` to `(i + 1) % count`. -/
theorem next_token_circular (tm : TokenManager) (h : tm.index < tm.tokens.length) :
    TokenManager.next_token^[tm.tokens.length] tm = tm ∧
    (∀ tm' : TokenManager,
      tm'.next_token.index = (tm'.index + 1) % tm'.tokens.length) := by
  refine ⟨?_, fun tm' => rfl⟩
  obtain ⟨m, hm⟩ : ∃ m, tm.tokens.length = m + 1 := ⟨tm.tokens.length - 1, by omega⟩
  rw [hm, next_token_iterate]
  have : (tm.index + m + 1) % tm.tokens.length = tm.index := by
    rw [Nat.add_assoc, ← hm, Nat.add_mod_right]
    exact Nat.mod_eq_of_lt h
  rw [this]

/-- C9 witness: three advances on a three-credential rotator starting
at index 1 restore the state. -/
theorem next_token_circular_witness :
    TokenManager.next_token^[3] ⟨["a", "b", "c"], 1⟩ = ⟨["a", "b", "c"], 1⟩ :=
  (next_token_circular ⟨["a", "b", "c"], 1⟩ (by decide)).1

/-- C1: when every attempt receives a transient server error status
(500, 502, 503 or 504, with a body that does not mention rate
limiting), `graphql_request` performs exactly `max(5, count * 3)`
attempts, waits `5 + attempt * 2` seconds after each failed attempt,
uses the same credential throughout (no rotation), and fails with the
exhausted-retries error, returning no value. -/
theorem transient_errors_exhaust (responses : Nat → HttpResponse) (tm : TokenManager)
    (hst : ∀ k, (responses k).status = 500 ∨ (responses k).status = 502 ∨
      (responses k).status = 503 ∨ (responses k).status = 504)
    (hrl : ∀ k, mentionsRateLimit (responses k).text = false) :
    graphql_request responses tm =
      ⟨Except.error GqlError.exhausted, tm, maxAttempts tm, 0,
        (List.range (maxAttempts tm)).map (fun attempt => 5 + (attempt + 1) * 2),
        [], List.replicate (maxAttempts tm) tm.current_token⟩ := by
  unfold graphql_request
  rw [gqlLoop_all_transient responses hst hrl (maxAttempts tm) 0 tm 0 [] [] []]
  rw [backoffSeq_eq_range]
  simp

/-- C1 witness: a constant-502 endpoint against a single token yields
5 attempts, backoffs 7, 9, 11, 13, 15 and the exhausted error. -/
theorem transient_errors_exhaust_witness :
    graphql_request (fun _ => resp502W) tmC1 =
      ⟨Except.error GqlError.exhausted, tmC1, 5, 0, [7, 9, 11, 13, 15], [],
        ["t", "t", "t", "t", "t"]⟩ :=
  transient_errors_exhaust (fun _ => resp502W) tmC1
    (fun _ => Or.inr (Or.inl rfl)) (fun _ => rfl)

/-- C2: with HTTP 429 on the first two attempts and a 200 success
payload (no errors field, remaining quota above the rotation
threshold) on the third, `graphql_request` returns the success
payload's data and the rotator has been advanced exactly twice over
the whole call. -/
theorem rate_limited_twice_then_success (responses : Nat → HttpResponse)
    (tm : TokenManager) (r : Int)
    (h0 : (responses 0).status = 429)
    (h1 : (responses 1).status = 429)
    (h2 : (responses 2).status = 200)
    (herr : (responses 2).errorsField = none)
    (hrem : (responses 2).remainingHdr = some r)
    (hr : 1 < r) :
    (graphql_request responses tm).outcome = Except.ok ((responses 2).dataField) ∧
    (graphql_request responses tm).rotations = 2 ∧
    (graphql_request responses tm).attempts = 3 ∧
    (graphql_request responses tm).tm = tm.next_token.next_token := by
  obtain ⟨f, hf⟩ : ∃ f, maxAttempts tm = f + 1 + 1 + 1 :=
    ⟨maxAttempts tm - 3, by unfold maxAttempts; omega⟩
  have hr' : ¬ r ≤ 1 := by omega
  unfold graphql_request
  rw [hf]
  simp [gqlLoop, h0, h1, h2, herr, hrem, hr']

/-- C2 witness: the concrete 429/429/200 endpoint against a
three-token manager returns "DATA" with exactly two rotations. -/
theorem rate_limited_twice_then_success_witness :
    (graphql_request responsesC2 tmC2).outcome = Except.ok "DATA" ∧
    (graphql_request responsesC2 tmC2).rotations = 2 ∧
    (graphql_request responsesC2 tmC2).attempts = 3 ∧
    (graphql_request responsesC2 tmC2).tm = ⟨["a", "b", "c"], 2⟩ :=
  rate_limited_twice_then_success responsesC2 tmC2 100 rfl rfl rfl rfl rfl
    (by decide)

/-- C6: a 200 response whose error payload does not mention rate
limiting makes `graphql_request` fail with the GraphQL error carrying
that payload after exactly one attempt, with no rotation, no sleeps and
no further requests. -/
theorem api_error_immediate (responses : Nat → HttpResponse) (tm : TokenManager)
    (errs : String)
    (h200 : (responses 0).status = 200)
    (herr : (responses 0).errorsField = some errs)
    (hnrl : mentionsRateLimit errs = false) :
    graphql_request responses tm =
      ⟨Except.error (GqlError.graphqlError errs), tm, 1, 0, [], [],
        [tm.current_token]⟩ := by
  obtain ⟨f, hf⟩ : ∃ f, maxAttempts tm = f + 1 :=
    ⟨maxAttempts tm - 1, by unfold maxAttempts; omega⟩
  unfold graphql_request
  rw [hf]
  simp [gqlLoop, h200, herr, hnrl]

/-- C6 witness: the "Bad syntax" error payload fails immediately on a
single-token manager. -/
theorem api_error_immediate_witness :
    graphql_request (fun _ => respBadSyntaxW) tmC6 =
      ⟨Except.error (GqlError.graphqlError "Bad syntax"), tmC6, 1, 0, [], [], ["x"]⟩ :=
  api_error_immediate (fun _ => respBadSyntaxW) tmC6 "Bad syntax" rfl rfl (by decide)

/-- C8 counterexample: with a single-credential rotator, a call that
ends with a 200 success reporting `remaining = 1` still leaves the
same credential active — the rotation wraps back to the only
credential, so the next call does NOT use a different credential. -/
theorem single_credential_rotation_cex :
    respRem1W.remainingHdr = some 1 ∧
    (graphql_request (fun _ => respRem1W) tmOnlyW).outcome = Except.ok "d" ∧
    (graphql_request (fun _ => respRem1W) tmOnlyW).tm.current_token =
      tmOnlyW.current_token :=
  ⟨rfl, rfl, rfl⟩

/-- C8 (amended): for every rotator holding at least two pairwise
distinct credentials (active index in range), whenever a
`graphql_request` call succeeds and the response of its final attempt
reported a remaining quota of 1, the credential active after the call
(the one the next call will use) differs from the credential the
returning attempt used. -/
theorem low_remaining_next_call_differs (responses : Nat → HttpResponse)
    (tm : TokenManager) (d : String)
    (hwf : tm.index < tm.tokens.length)
    (h2 : 2 ≤ tm.tokens.length)
    (hnd : tm.tokens.Nodup)
    (hok : (graphql_request responses tm).outcome = Except.ok d)
    (hhdr : (responses ((graphql_request responses tm).attempts - 1)).remainingHdr
      = some 1) :
    ∀ t, (graphql_request responses tm).used.getLast? = some t →
      (graphql_request responses tm).tm.current_token ≠ t := by
  unfold graphql_request at hok hhdr ⊢
  obtain ⟨tmS, hTok, hS, hLast, hTm⟩ :=
    gqlLoop_ok_rotates_last responses (maxAttempts tm) tm 0 0 [] [] [] d hwf hok hhdr
  intro t ht
  rw [hLast] at ht
  injection ht with ht
  rw [hTm, ← ht]
  exact current_token_next_ne tmS hS (by rw [hTok]; exact h2) (by rw [hTok]; exact hnd)

/-- C8 witness: on a two-credential rotator, the success with
`remaining = 1` leaves a credential different from the one the call
used. -/
theorem low_remaining_next_call_differs_witness :
    (graphql_request (fun _ => respRem1W) tmPairW).tm.current_token ≠ "a" :=
  low_remaining_next_call_differs (fun _ => respRem1W) tmPairW "d"
    (by decide) (by decide) (by decide) rfl rfl "a" rfl

/-- C10: a 200 success response with the `X-RateLimit-Remaining` header
absent is treated as `remaining = 1`, so `graphql_request` rotates the
credential before returning the data payload. -/
theorem missing_remaining_header_rotates (responses : Nat → HttpResponse)
    (tm : TokenManager)
    (h200 : (responses 0).status = 200)
    (herr : (responses 0).errorsField = none)
    (hhdr : (responses 0).remainingHdr = none) :
    graphql_request responses tm =
      ⟨Except.ok ((responses 0).dataField), tm.next_token, 1, 1, [], [],
        [tm.current_token]⟩ := by
  obtain ⟨f, hf⟩ : ∃ f, maxAttempts tm = f + 1 :=
    ⟨maxAttempts tm - 1, by unfold maxAttempts; omega⟩
  unfold graphql_request
  rw [hf]
  simp [gqlLoop, h200, herr, hhdr]

/-- C10 witness: a header-less success on a two-token manager returns
the payload and advances to the second token. -/
theorem missing_remaining_header_rotates_witness :
    graphql_request (fun _ => respNoHdrW) tmC10 =
      ⟨Except.ok "payload", ⟨["p", "q"], 1⟩, 1, 1, [], [], ["p"]⟩ :=
  missing_remaining_header_rotates (fun _ => respNoHdrW) tmC10 rfl rfl rfl

/-- C3: with `limit = 25` and configured page size 10, when every page
request returns exactly the requested number of non-null records and
reports `hasNextPage = true`, `fetch_top_repositories` issues exactly
three page requests with `first` variables 10, 10 and 5 in that order,
and returns exactly 25 records: the concatenation of the pages in API
return order. -/
theorem fetch_25_three_pages (pages : Nat → Int → PageResponse) (fuel : Nat)
    (hfuel : 3 ≤ fuel)
    (H : ∀ k b, ((pages k b).nodes.filterMap id).length = b.toNat ∧
      (pages k b).hasNextPage = true) :
    fetch_top_repositories pages 10 25 fuel =
      some ⟨((pages 0 10).nodes.filterMap id ++ (pages 1 10).nodes.filterMap id)
          ++ (pages 2 5).nodes.filterMap id, [10, 10, 5]⟩ ∧
    (((pages 0 10).nodes.filterMap id ++ (pages 1 10).nodes.filterMap id)
        ++ (pages 2 5).nodes.filterMap id).length = 25 := by
  obtain ⟨f, rfl⟩ : ∃ f, fuel = f + 1 + 1 + 1 := ⟨fuel - 3, by omega⟩
  have h0 := (H 0 10).1
  have hn0 := (H 0 10).2
  have h1 := (H 1 10).1
  have hn1 := (H 1 10).2
  have h2 := (H 2 5).1
  constructor
  · unfold fetch_top_repositories
    rw [if_neg (by norm_num)]
    simp [fetchLoop, h0, hn0, h1, hn1, h2,
      (show min (10 : Int) 25 = 10 by norm_num),
      (show min (10 : Int) 15 = 10 by norm_num),
      (show min (10 : Int) 5 = 5 by norm_num)]
  · simp [h0, h1, h2]

/-- C3 witness: the endpoint that echoes the requested count returns
the 25 records 1, ..., 1 with request sizes 10, 10, 5. -/
theorem fetch_25_three_pages_witness :
    fetch_top_repositories pagesExactW 10 25 25 =
      some ⟨List.replicate 25 1, [10, 10, 5]⟩ ∧
    (List.replicate 25 (1 : Nat)).length = 25 :=
  fetch_25_three_pages pagesExactW 25 (by norm_num)
    (fun k b => ⟨filterMap_id_replicate b.toNat 1, rfl⟩)

/-- C4: when every page response holds at most the requested number of
non-null records, any finished `fetch_top_repositories` run returns at
most `max(limit, 0)` records; for `limit ≤ 0` it returns the empty
result with zero page requests issued. -/
theorem fetch_length_bound (pages : Nat → Int → PageResponse)
    (pageSize limit : Int) (fuel : Nat)
    (H : ∀ k b, ((pages k b).nodes.filterMap id).length ≤ b.toNat) :
    (limit ≤ 0 → fetch_top_repositories pages pageSize limit fuel = some ⟨[], []⟩) ∧
    ∀ out, fetch_top_repositories pages pageSize limit fuel = some out →
      out.repos.length ≤ limit.toNat := by
  constructor
  · intro h
    simp [fetch_top_repositories, h]
  · intro out hout
    unfold fetch_top_repositories at hout
    by_cases h : limit ≤ 0
    · rw [if_pos h] at hout
      injection hout with hout
      rw [← hout]
      exact Nat.zero_le _
    · rw [if_neg h] at hout
      have hb := fetchLoop_length_bound pages pageSize H fuel 0 limit [] [] out hout
      simpa using hb

/-- C4 witness: at `limit = 0` the empty-endpoint run issues no
request and returns nothing, and a finished run at `limit = 3` returns
at most 3 records. -/
theorem fetch_length_bound_witness :
    fetch_top_repositories pagesNilW 10 0 5 = some ⟨[], []⟩ ∧
    (FetchOut.mk [] [3]).repos.length ≤ (3 : Int).toNat :=
  ⟨(fetch_length_bound pagesNilW 10 0 5 (fun k b => by simp [pagesNilW])).1
      (by decide),
   (fetch_length_bound pagesNilW 10 3 5 (fun k b => by simp [pagesNilW])).2
      ⟨[], [3]⟩ rfl⟩

/-- C5 counterexample: against the endpoint whose every page carries
zero non-null records while reporting `hasNextPage = true`, the
pagination loop at `limit = 1` never terminates: no amount of fuel
makes the run finish, refuting termination "for every sequence of
successful page responses". -/
theorem fetch_stall_diverges_cex :
    ¬ ∃ fuel, (fetch_top_repositories pagesStallW 10 1 fuel).isSome = true := by
  rintro ⟨fuel, h⟩
  unfold fetch_top_repositories at h
  rw [if_neg (by norm_num)] at h
  rw [fetchLoop_stall 10 fuel 0 1 [] [] (by norm_num)] at h
  simp at h

/-- C5 (amended): for every `limit > 0` the pagination loop terminates
after at most `limit` page requests provided every successful page
response carries at least one non-null record; a page with zero
non-null records and `hasNextPage = true` repeats the state and the
loop spins forever. -/
theorem fetch_progress_terminates (pages : Nat → Int → PageResponse)
    (pageSize limit : Int)
    (hlim : 0 < limit)
    (H : ∀ k b, 1 ≤ ((pages k b).nodes.filterMap id).length) :
    (fetch_top_repositories pages pageSize limit limit.toNat).isSome = true := by
  unfold fetch_top_repositories
  rw [if_neg (by omega)]
  exact fetchLoop_progress pages pageSize H limit.toNat 0 limit [] [] hlim
    (Nat.le_refl _)

/-- C5 witness: with one record per page, the `limit = 2` run finishes
within 2 page requests. -/
theorem fetch_progress_terminates_witness :
    (fetch_top_repositories pagesOneW 10 2 (2 : Int).toNat).isSome = true :=
  fetch_progress_terminates pagesOneW 10 2 (by decide)
    (fun k b => by simp [pagesOneW])

end GithubClient
